import Mathlib

/-!
Shallow embedding of the CV chronologizer core (src/src/hooks/useCVData.tsx):
the timeline-entry data model, the chronology validator utilities
(`isDateWithinElevenYearWindow`, `isFirstChronologicalEntry`,
`isEntryInChronologicalOrder`, `identifyGaps`) and the store operations
(`addEntry`, `updateEntry`, `removeEntry`, `getCVData`).

The source file contains several superseding iterations of the same utility
module separated by document markers.  Two of them matter to the properties
verified here and are embedded side by side:
* the range-policy validator and date-comparison gap query
  (lines 299-345 and 347-377), embedded as `isEntryInChronologicalOrder`
  and `identifyGaps`;
* the month-and-year-equality validator and month-difference gap query
  (lines 1800-1848 and 1850-1881), embedded as
  `isEntryInChronologicalOrderME` and `identifyGapsME`.

Dates: the UI hands the core ISO strings.  Start dates and concrete end
dates are month precision (`"YYYY-MM"`, parsed by `new Date` to the first
day of the month); the date of birth is day precision; `new Date()` (the
ambient clock) is passed explicitly as `today`.  JavaScript `Date`
comparison is timestamp comparison, i.e. lexicographic on
(year, month, day) for valid calendar dates, which is how `CDate.le` is
defined.  `parseDateString` returning the empty string (absent or
syntactically unparseable date of birth) is modelled by
`PersonalInfo.dateOfBirth = none`.
-/

/-- A day-precision calendar date, as produced by `parseISO`/`new Date`. -/
structure CDate where
  year : Nat
  month : Nat
  day : Nat
deriving DecidableEq, Repr

/-- A month-precision date, as produced by the month picker (`"YYYY-MM"`). -/
structure MDate where
  year : Nat
  month : Nat
deriving DecidableEq, Repr

/-- Timestamp order on dates, as a proposition: lexicographic on
(year, month, day). -/
def CDate.leP (a b : CDate) : Prop :=
  a.year < b.year ∨
    (a.year = b.year ∧
      (a.month < b.month ∨ (a.month = b.month ∧ a.day ≤ b.day)))

instance (a b : CDate) : Decidable (CDate.leP a b) :=
  inferInstanceAs (Decidable (a.year < b.year ∨
    (a.year = b.year ∧
      (a.month < b.month ∨ (a.month = b.month ∧ a.day ≤ b.day)))))

/-- JavaScript `a <= b` on two `Date` values (timestamp comparison). -/
def CDate.le (a b : CDate) : Bool := decide (CDate.leP a b)

/-- JavaScript `a < b` on two `Date` values. -/
def CDate.lt (a b : CDate) : Bool := !(CDate.le b a)

theorem CDate.le_iff (a b : CDate) : CDate.le a b = true ↔ CDate.leP a b := by
  simp [CDate.le]

theorem CDate.le_total (a b : CDate) :
    CDate.le a b = true ∨ CDate.le b a = true := by
  simp only [CDate.le_iff, CDate.leP]; omega

theorem CDate.le_trans {a b c : CDate} (h₁ : CDate.le a b = true)
    (h₂ : CDate.le b c = true) : CDate.le a c = true := by
  simp only [CDate.le_iff, CDate.leP] at *; omega

theorem CDate.lt_iff (a b : CDate) :
    CDate.lt a b = true ↔ ¬ CDate.leP b a := by
  simp [CDate.lt, CDate.le]

/-- `new Date("YYYY-MM")`: the first day of the month. -/
def toDate (m : MDate) : CDate := ⟨m.year, m.month, 1⟩

/-- `toISOString().slice(0, 7)` / `getFullYear`+`getMonth`: the month
component of a full date. -/
def monthOf (d : CDate) : MDate := ⟨d.year, d.month⟩

/-- Day count of a month (proleptic Gregorian), used by `addYears`
to clamp Feb 29. -/
def daysInMonth (y m : Nat) : Nat :=
  if m = 2 then
    if y % 4 = 0 && (y % 100 != 0 || y % 400 = 0) then 29 else 28
  else if m = 4 || m = 6 || m = 9 || m = 11 then 30
  else 31

/-- date-fns `addYears`: add to the year, clamping the day to the target
month's length (Feb 29 + 1 year = Feb 28). -/
def addYears (d : CDate) (n : Nat) : CDate :=
  ⟨d.year + n, d.month, min d.day (daysInMonth (d.year + n) d.month)⟩

/-- `endDate`: a concrete month or the sentinel `"present"`. -/
inductive EndDate where
  | present : EndDate
  | on : MDate → EndDate
deriving DecidableEq, Repr

/-- `EntryType = "education" | "work" | "gap"`. -/
inductive EntryType where
  | education | work | gap
deriving DecidableEq, Repr

/-- `TimelineEntry`.  Ids (UUID strings in the source) are opaque and
modelled as naturals. -/
structure TimelineEntry where
  id : Nat
  type : EntryType
  title : String
  organization : String
  country : String
  startDate : MDate
  endDate : EndDate
  description : String
deriving DecidableEq, Repr

/-- `Omit<TimelineEntry, "id">`: the shape `addEntry` receives. -/
structure EntryInput where
  type : EntryType
  title : String
  organization : String
  country : String
  startDate : MDate
  endDate : EndDate
  description : String
deriving DecidableEq, Repr

/-- `{ ...entry, id: crypto.randomUUID() }`. -/
def EntryInput.withId (e : EntryInput) (i : Nat) : TimelineEntry :=
  ⟨i, e.type, e.title, e.organization, e.country, e.startDate, e.endDate,
    e.description⟩

/-- `PersonalInfo`; `dateOfBirth` is `none` when the stored string is
absent or `parseDateString` fails on it. -/
structure PersonalInfo where
  firstName : String
  lastName : String
  dateOfBirth : Option CDate
  address : String
  email : String
  phone : String
deriving DecidableEq, Repr

/-- The hook's state: `personalInfo`, `entries`, `editingEntryId`,
`isPreviewMode`. -/
structure CVState where
  personalInfo : PersonalInfo
  entries : List TimelineEntry
  editingEntryId : Option Nat
  isPreviewMode : Bool
deriving DecidableEq, Repr

/-- `CVData = { personalInfo, entries }`. -/
structure CVData where
  personalInfo : PersonalInfo
  entries : List TimelineEntry
deriving DecidableEq, Repr

/-- A record pushed by `identifyGaps`: `{ start, end }`. -/
structure GapRecord where
  start : CDate
  stop : CDate
deriving DecidableEq, Repr

/-- The distinct failure exits of `addEntry`/`updateEntry`; in the source
each corresponds to a distinct toast (or, for `entryNotFound`, a silent
`return false`). -/
inductive RejectReason where
  | missingDateOfBirth
  | outsideFirstEntryWindow
  | chronologyViolation
  | invalidDateOrdering
  | entryNotFound
deriving DecidableEq, Repr

/-- `Partial<TimelineEntry>`: the `updates` argument of `updateEntry`. -/
structure EntryPatch where
  id : Option Nat := none
  type : Option EntryType := none
  title : Option String := none
  organization : Option String := none
  country : Option String := none
  startDate : Option MDate := none
  endDate : Option EndDate := none
  description : Option String := none
deriving DecidableEq, Repr

/-- The empty patch (`{}`). -/
def emptyPatch : EntryPatch := {}

/-- The patch holding exactly an entry's current values: the no-op edit. -/
def noopPatch (e : TimelineEntry) : EntryPatch :=
  ⟨some e.id, some e.type, some e.title, some e.organization,
    some e.country, some e.startDate, some e.endDate, some e.description⟩

/-- `{ ...entryToUpdate, ...updates }`. -/
def applyPatch (e : TimelineEntry) (p : EntryPatch) : TimelineEntry :=
  ⟨p.id.getD e.id, p.type.getD e.type, p.title.getD e.title,
    p.organization.getD e.organization, p.country.getD e.country,
    p.startDate.getD e.startDate, p.endDate.getD e.endDate,
    p.description.getD e.description⟩

/-- An entry's effective end for comparison: `new Date()` when open-ended,
else its `endDate`. -/
def effectiveEnd (today : CDate) (e : TimelineEntry) : CDate :=
  match e.endDate with
  | .present => today
  | .on m => toDate m

/-- The sort key relation of every `sort((a, b) => new Date(a.startDate) -
new Date(b.startDate))` call. -/
def startLE (a b : TimelineEntry) : Prop :=
  CDate.le (toDate a.startDate) (toDate b.startDate) = true

instance : DecidableRel startLE := fun _ _ =>
  inferInstanceAs (Decidable (_ = true))

instance : IsTotal TimelineEntry startLE :=
  ⟨fun a b => CDate.le_total (toDate a.startDate) (toDate b.startDate)⟩

instance : IsTrans TimelineEntry startLE :=
  ⟨fun _ _ _ h₁ h₂ => CDate.le_trans h₁ h₂⟩

/-- JavaScript's stable `Array.prototype.sort` under the start-date
comparator, modelled as a stable insertion sort. -/
def sortByStart (l : List TimelineEntry) : List TimelineEntry :=
  l.insertionSort startLE

/-- `isDateWithinElevenYearWindow` (lines 264-285, the inclusive-bounds
iteration): the start lies between one and eleven years after the date of
birth, endpoints included. -/
def isDateWithinElevenYearWindow (dob : CDate) (startDate : MDate) : Bool :=
  let ageOneYear := addYears dob 1
  let ageElevenYears := addYears dob 11
  CDate.le ageOneYear (toDate startDate) &&
    CDate.le (toDate startDate) ageElevenYears

/-- `isFirstChronologicalEntry` (lines 287-297): true only when the entry
list, with the given id filtered out, is empty. -/
def isFirstChronologicalEntry (entries : List TimelineEntry)
    (entryId : Option Nat) : Bool :=
  if entries.isEmpty then true
  else
    let filteredEntries : List TimelineEntry := match entryId with
      | some i => entries.filter (fun e => e.id != i)
      | none => entries
    if filteredEntries.isEmpty then true else false

/-- `findIndex` + `splice(index, 1)`: remove the first entry with the given
id, if any. -/
def removeFirstById : List TimelineEntry → Nat → List TimelineEntry
  | [], _ => []
  | e :: rest, i => if e.id = i then rest else e :: removeFirstById rest i

/-- The adjacent-pair loop of `isEntryInChronologicalOrder`
(lines 326-342): reject when `current.startDate` falls before
`previous.startDate` or after `previous`'s effective end. -/
def checkPairsRange (today : CDate) : List TimelineEntry → Bool
  | p :: c :: rest =>
      if CDate.lt (toDate c.startDate) (toDate p.startDate) ||
          CDate.lt (effectiveEnd today p) (toDate c.startDate) then false
      else checkPairsRange today (c :: rest)
  | _ => true

/-- `isEntryInChronologicalOrder` (lines 299-345, the range-policy
iteration): drop the edited entry, append the candidate, sort by start
date, and run the range check over adjacent pairs. -/
def isEntryInChronologicalOrder (today : CDate)
    (entries : List TimelineEntry) (newEntry : TimelineEntry)
    (editingEntryId : Option Nat) : Bool :=
  if entries.isEmpty then true
  else
    let withoutEdited := match editingEntryId with
      | some i => removeFirstById entries i
      | none => entries
    checkPairsRange today (sortByStart (withoutEdited ++ [newEntry]))

/-- The adjacent-pair loop of the month-equality iteration of
`isEntryInChronologicalOrder` (lines 1827-1845): reject unless
`previous`'s effective end and `current.startDate` share year and month. -/
def checkPairsME (today : CDate) : List TimelineEntry → Bool
  | p :: c :: rest =>
      if monthOf (effectiveEnd today p) = monthOf (toDate c.startDate) then
        checkPairsME today (c :: rest)
      else false
  | _ => true

/-- `isEntryInChronologicalOrder` (lines 1800-1848, the month-and-year
equality iteration). -/
def isEntryInChronologicalOrderME (today : CDate)
    (entries : List TimelineEntry) (newEntry : TimelineEntry)
    (editingEntryId : Option Nat) : Bool :=
  if entries.isEmpty then true
  else
    let withoutEdited := match editingEntryId with
      | some i => removeFirstById entries i
      | none => entries
    checkPairsME today (sortByStart (withoutEdited ++ [newEntry]))

/-- The gap-collecting loop of `identifyGaps` (lines 356-374, the
date-comparison iteration): a gap whenever the current start is strictly
after the previous effective end. -/
def gapsLoopRange (today : CDate) : List TimelineEntry → List GapRecord
  | p :: c :: rest =>
      let prevEnd := effectiveEnd today p
      let currStart := toDate c.startDate
      (if CDate.lt prevEnd currStart then [⟨prevEnd, currStart⟩] else []) ++
        gapsLoopRange today (c :: rest)
  | _ => []

/-- `identifyGaps` (lines 347-377, the date-comparison iteration). -/
def identifyGaps (today : CDate) (entries : List TimelineEntry) :
    List GapRecord :=
  if entries.length < 2 then []
  else gapsLoopRange today (sortByStart entries)

/-- The gap-collecting loop of the month-difference iteration of
`identifyGaps` (lines 1859-1878): a gap whenever the previous effective
end and the current start differ in month or year. -/
def gapsLoopME (today : CDate) : List TimelineEntry → List GapRecord
  | p :: c :: rest =>
      let prevEnd := effectiveEnd today p
      let currStart := toDate c.startDate
      (if monthOf prevEnd = monthOf currStart then []
       else [⟨prevEnd, currStart⟩]) ++ gapsLoopME today (c :: rest)
  | _ => []

/-- `identifyGaps` (lines 1850-1881, the month-difference iteration). -/
def identifyGapsME (today : CDate) (entries : List TimelineEntry) :
    List GapRecord :=
  if entries.length < 2 then []
  else gapsLoopME today (sortByStart entries)

/-- The gap report as the spec words it, for comparison with
`identifyGapsME`: over the sorted entry list, one record per adjacent pair
whose previous effective end and current start differ in month or year. -/
def gapRecordsSpec (today : CDate) (sorted : List TimelineEntry) :
    List GapRecord :=
  (sorted.zip sorted.tail).filterMap (fun pc =>
    if monthOf (effectiveEnd today pc.1) = monthOf (toDate pc.2.startDate)
    then none
    else some ⟨effectiveEnd today pc.1, toDate pc.2.startDate⟩)

/-- `addEntry` (lines 24-68).  Result: the rejection reason (`none` on
success) paired with the state after the call.  The freshly generated id
is a parameter; `today` is the ambient clock. -/
def addEntry (today : CDate) (s : CVState) (entry : EntryInput)
    (newId : Nat) : Option RejectReason × CVState :=
  let newEntry := entry.withId newId
  if s.entries.isEmpty then
    match s.personalInfo.dateOfBirth with
    | none => (some .missingDateOfBirth, s)
    | some isoDob =>
        if !(isDateWithinElevenYearWindow isoDob newEntry.startDate) then
          (some .outsideFirstEntryWindow, s)
        else (none, { s with entries := s.entries ++ [newEntry] })
  else
    if !(isEntryInChronologicalOrder today s.entries newEntry none) then
      (some .chronologyViolation, s)
    else
      let newEntryStartDate := toDate newEntry.startDate
      let newEntryEndDate := effectiveEnd today newEntry
      if CDate.le newEntryEndDate newEntryStartDate then
        (some .invalidDateOrdering, s)
      else (none, { s with entries := s.entries ++ [newEntry] })

/-- The `isFirstEntry` condition of `updateEntry` (lines 77-78):
`entries.length === 1 || (entries.length > 1 &&
isFirstChronologicalEntry(entries, id))`. -/
def isFirstEntryCond (entries : List TimelineEntry) (id : Nat) : Bool :=
  entries.length == 1 ||
    (decide (entries.length > 1) && isFirstChronologicalEntry entries (some id))

/-- `updateEntry` (lines 70-120).  A missing id is the silent `return
false` at line 72, modelled as `entryNotFound`. -/
def updateEntry (today : CDate) (s : CVState) (id : Nat)
    (updates : EntryPatch) : Option RejectReason × CVState :=
  match s.entries.find? (fun e => e.id == id) with
  | none => (some .entryNotFound, s)
  | some entryToUpdate =>
      let updatedEntry := applyPatch entryToUpdate updates
      let replaced : List TimelineEntry :=
        s.entries.map (fun e => if e.id = id then updatedEntry else e)
      if isFirstEntryCond s.entries id then
        match s.personalInfo.dateOfBirth with
        | none => (some .missingDateOfBirth, s)
        | some isoDob =>
            if !(isDateWithinElevenYearWindow isoDob updatedEntry.startDate) then
              (some .outsideFirstEntryWindow, s)
            else (none, { s with entries := replaced })
      else
        if !(isEntryInChronologicalOrder today s.entries updatedEntry (some id)) then
          (some .chronologyViolation, s)
        else
          let updatedStartDate := toDate updatedEntry.startDate
          let updatedEndDate := effectiveEnd today updatedEntry
          if CDate.le updatedEndDate updatedStartDate then
            (some .invalidDateOrdering, s)
          else (none, { s with entries := replaced })

/-- `removeEntry` (lines 122-127): unconditional filter; clears the
editing flag when it pointed at the removed id. -/
def removeEntry (s : CVState) (id : Nat) : CVState :=
  { s with
    entries := s.entries.filter (fun e => e.id != id),
    editingEntryId :=
      if s.editingEntryId = some id then none else s.editingEntryId }

/-- `getCVData` (lines 145-155): personal info plus the entries sorted
ascending by start date. -/
def getCVData (s : CVState) : CVData :=
  { personalInfo := s.personalInfo,
    entries := sortByStart s.entries }

/-! ## Helper lemmas -/

theorem applyPatch_empty (e : TimelineEntry) : applyPatch e emptyPatch = e :=
  rfl

theorem isEmpty_eq_false_of_ne_nil {l : List TimelineEntry} (h : l ≠ []) :
    l.isEmpty = false := by
  cases l with
  | nil => exact absurd rfl h
  | cons a t => rfl

theorem checkPairsME_eq_true_iff (today : CDate) :
    ∀ l : List TimelineEntry, checkPairsME today l = true ↔
      List.Chain' (fun p c => monthOf (effectiveEnd today p) = c.startDate) l
  | [] => by simp [checkPairsME]
  | [a] => by simp [checkPairsME]
  | a :: b :: t => by
      rw [checkPairsME]
      by_cases h : monthOf (effectiveEnd today a) = monthOf (toDate b.startDate)
      · rw [if_pos h, checkPairsME_eq_true_iff today (b :: t),
          List.chain'_cons]
        have hR : monthOf (effectiveEnd today a) = b.startDate := h
        simp [hR]
      · rw [if_neg h]
        simp only [List.chain'_cons]
        constructor
        · intro hf; exact absurd hf (by simp)
        · intro hc; exact absurd hc.1 h

theorem gapsLoopME_eq_pairs (today : CDate) :
    ∀ l : List TimelineEntry,
      gapsLoopME today l = (l.zip l.tail).filterMap (fun pc =>
        if monthOf (effectiveEnd today pc.1) = monthOf (toDate pc.2.startDate)
        then none
        else some ⟨effectiveEnd today pc.1, toDate pc.2.startDate⟩)
  | [] => rfl
  | [a] => rfl
  | a :: b :: t => by
      rw [gapsLoopME]
      simp only [List.tail_cons, List.zip_cons_cons, List.filterMap_cons]
      rw [gapsLoopME_eq_pairs today (b :: t)]
      by_cases h : monthOf (effectiveEnd today a) = monthOf (toDate b.startDate) <;>
        simp [h]

/-! ## Claim theorems -/

/-- C9: for every entry list with fewer than two entries, `identifyGaps`
returns the empty list. -/
theorem identifyGaps_fewerThanTwo (today : CDate)
    (entries : List TimelineEntry) (h : entries.length < 2) :
    identifyGaps today entries = [] := by
  simp [identifyGaps, h]

/-- Witness for C9 at a concrete single-entry list. -/
theorem identifyGaps_fewerThanTwo_witness :
    identifyGaps ⟨2025, 1, 1⟩
      [⟨1, .education, "t", "o", "c", ⟨2015, 9⟩, .on ⟨2018, 6⟩, "d"⟩] = [] :=
  identifyGaps_fewerThanTwo _ _ (by decide)

/-- C10: `updateEntry` on an id matching no stored entry fails with the
silent not-found exit and returns the state unchanged (entries, personal
info, and editing flag included), with no validation reason involved. -/
theorem updateEntry_unknownId (today : CDate) (s : CVState) (id : Nat)
    (p : EntryPatch) (h : ∀ e ∈ s.entries, e.id ≠ id) :
    updateEntry today s id p = (some .entryNotFound, s) := by
  have hf : s.entries.find? (fun e => e.id == id) = none := by
    rw [List.find?_eq_none]
    intro x hx
    simpa using h x hx
  simp [updateEntry, hf]

/-- Witness for C10 at a concrete state and missing id. -/
theorem updateEntry_unknownId_witness :
    updateEntry ⟨2025, 1, 1⟩
      ⟨⟨"A", "B", some ⟨2000, 1, 1⟩, "", "", ""⟩,
        [⟨1, .education, "t", "o", "c", ⟨2015, 9⟩, .on ⟨2018, 6⟩, "d"⟩],
        none, false⟩ 99 emptyPatch =
      (some .entryNotFound,
        ⟨⟨"A", "B", some ⟨2000, 1, 1⟩, "", "", ""⟩,
          [⟨1, .education, "t", "o", "c", ⟨2015, 9⟩, .on ⟨2018, 6⟩, "d"⟩],
          none, false⟩) :=
  updateEntry_unknownId _ _ _ _ (by decide)

/-- C1: on an empty entry set, `addEntry` succeeds exactly when the date
of birth is present and the candidate start lies between one and eleven
years after it (both bounds inclusive); an absent or unparseable date of
birth is the missing-date-of-birth rejection, and a start outside the
window is the outside-first-entry-window rejection. -/
theorem addEntry_firstEntryWindow (today : CDate) (pinf : PersonalInfo)
    (eid : Option Nat) (pm : Bool) (e : EntryInput) (i : Nat) :
    ((addEntry today ⟨pinf, [], eid, pm⟩ e i).1 = none ↔
      ∃ D, pinf.dateOfBirth = some D ∧
        CDate.le (addYears D 1) (toDate e.startDate) = true ∧
        CDate.le (toDate e.startDate) (addYears D 11) = true) ∧
    (pinf.dateOfBirth = none →
      (addEntry today ⟨pinf, [], eid, pm⟩ e i).1 =
        some .missingDateOfBirth) ∧
    (∀ D, pinf.dateOfBirth = some D →
      isDateWithinElevenYearWindow D e.startDate = false →
      (addEntry today ⟨pinf, [], eid, pm⟩ e i).1 =
        some .outsideFirstEntryWindow) := by
  refine ⟨?_, ?_, ?_⟩
  · cases hd : pinf.dateOfBirth with
    | none => simp [addEntry, hd]
    | some D =>
        by_cases hw : isDateWithinElevenYearWindow D e.startDate
        · have hw2 := hw
          rw [isDateWithinElevenYearWindow, Bool.and_eq_true] at hw2
          simp only [addEntry, EntryInput.withId, hd, hw, List.isEmpty_nil,
            Bool.not_true, Bool.false_eq_true, if_false, if_true]
          simp only [Option.some.injEq]
          constructor
          · intro _
            exact ⟨D, rfl, hw2.1, hw2.2⟩
          · intro _
            trivial
        · have hwf : isDateWithinElevenYearWindow D e.startDate = false := by
            simpa using hw
          have hw2 : ¬(CDate.le (addYears D 1) (toDate e.startDate) = true ∧
              CDate.le (toDate e.startDate) (addYears D 11) = true) := by
            rw [← Bool.and_eq_true]
            simpa [isDateWithinElevenYearWindow] using hw
          simp only [addEntry, EntryInput.withId, hd, hwf, List.isEmpty_nil,
            Bool.not_false, if_true]
          constructor
          · intro hcon
            exact absurd hcon (by simp)
          · rintro ⟨D', hD', h1, h2⟩
            rw [Option.some.injEq] at hD'
            subst hD'
            exact absurd ⟨h1, h2⟩ hw2
  · intro h
    simp [addEntry, h]
  · intro D hD hW
    simp [addEntry, EntryInput.withId, hD, hW]

/-- Witness for C1: a birth date of 2000-01-01 with a first entry starting
2001-01 is accepted. -/
theorem addEntry_firstEntryWindow_witness :
    (addEntry ⟨2025, 5, 15⟩
      ⟨⟨"A", "B", some ⟨2000, 1, 1⟩, "", "", ""⟩, [], none, false⟩
      ⟨.education, "t", "o", "c", ⟨2001, 1⟩, .on ⟨2006, 7⟩, "d"⟩ 5).1 =
      none :=
  (addEntry_firstEntryWindow ⟨2025, 5, 15⟩
      ⟨"A", "B", some ⟨2000, 1, 1⟩, "", "", ""⟩ none false
      ⟨.education, "t", "o", "c", ⟨2001, 1⟩, .on ⟨2006, 7⟩, "d"⟩ 5).1.mpr
    ⟨⟨2000, 1, 1⟩, rfl, by decide, by decide⟩

/-- C5: whenever `addEntry` or `updateEntry` rejects, for any reason, the
stored entry list and the personal info after the call are exactly those
before it. -/
theorem ops_reject_stateUnchanged :
    (∀ today (s : CVState) (e : EntryInput) (i : Nat) (r : RejectReason),
      (addEntry today s e i).1 = some r →
      (addEntry today s e i).2.entries = s.entries ∧
      (addEntry today s e i).2.personalInfo = s.personalInfo) ∧
    (∀ today (s : CVState) (id : Nat) (p : EntryPatch) (r : RejectReason),
      (updateEntry today s id p).1 = some r →
      (updateEntry today s id p).2.entries = s.entries ∧
      (updateEntry today s id p).2.personalInfo = s.personalInfo) := by
  have hadd : ∀ today (s : CVState) (e : EntryInput) (i : Nat)
      (r : RejectReason), (addEntry today s e i).1 = some r →
      (addEntry today s e i).2 = s := by
    intro today s e i r h
    by_cases h1 : s.entries.isEmpty
    · cases hd : s.personalInfo.dateOfBirth with
      | none => simp [addEntry, h1, hd]
      | some D =>
          by_cases hw : isDateWithinElevenYearWindow D (e.withId i).startDate
          · exfalso
            simp [addEntry, h1, hd, hw] at h
          · simp [addEntry, h1, hd, hw]
    · by_cases hc : isEntryInChronologicalOrder today s.entries (e.withId i) none
      · by_cases hle : CDate.le (effectiveEnd today (e.withId i))
            (toDate (e.withId i).startDate)
        · simp [addEntry, h1, hc, hle]
        · exfalso
          simp [addEntry, h1, hc, hle] at h
      · simp [addEntry, h1, hc]
  have hupd : ∀ today (s : CVState) (id : Nat) (p : EntryPatch)
      (r : RejectReason), (updateEntry today s id p).1 = some r →
      (updateEntry today s id p).2 = s := by
    intro today s id p r h
    cases hf : s.entries.find? (fun e => e.id == id) with
    | none => simp [updateEntry, hf]
    | some E =>
        by_cases hfe : isFirstEntryCond s.entries id
        · cases hd : s.personalInfo.dateOfBirth with
          | none => simp [updateEntry, hf, hfe, hd]
          | some D =>
              by_cases hw : isDateWithinElevenYearWindow D
                  (applyPatch E p).startDate
              · exfalso
                simp [updateEntry, hf, hfe, hd, hw] at h
              · simp [updateEntry, hf, hfe, hd, hw]
        · by_cases hc : isEntryInChronologicalOrder today s.entries
              (applyPatch E p) (some id)
          · by_cases hle : CDate.le (effectiveEnd today (applyPatch E p))
                (toDate (applyPatch E p).startDate)
            · simp [updateEntry, hf, hfe, hc, hle]
            · exfalso
              simp [updateEntry, hf, hfe, hc, hle] at h
          · simp [updateEntry, hf, hfe, hc]
  constructor
  · intro today s e i r h
    rw [hadd today s e i r h]
    exact ⟨rfl, rfl⟩
  · intro today s id p r h
    rw [hupd today s id p r h]
    exact ⟨rfl, rfl⟩

/-- Witness for C5: a rejected first add (missing date of birth) leaves
the empty entry list and the personal info unchanged. -/
theorem ops_reject_stateUnchanged_witness :
    (addEntry ⟨2025, 5, 15⟩ ⟨⟨"A", "B", none, "", "", ""⟩, [], none, false⟩
      ⟨.education, "t", "o", "c", ⟨2001, 1⟩, .on ⟨2003, 1⟩, "d"⟩ 3).2.entries
      = [] ∧
    (addEntry ⟨2025, 5, 15⟩ ⟨⟨"A", "B", none, "", "", ""⟩, [], none, false⟩
      ⟨.education, "t", "o", "c", ⟨2001, 1⟩, .on ⟨2003, 1⟩, "d"⟩
      3).2.personalInfo = ⟨"A", "B", none, "", "", ""⟩ :=
  ops_reject_stateUnchanged.1 ⟨2025, 5, 15⟩
    ⟨⟨"A", "B", none, "", "", ""⟩, [], none, false⟩
    ⟨.education, "t", "o", "c", ⟨2001, 1⟩, .on ⟨2003, 1⟩, "d"⟩ 3
    RejectReason.missingDateOfBirth (by decide)

/-- C2: on a non-empty entry set the month-equality validator accepts a
candidate exactly when, in the candidate set sorted ascending by start
date, every adjacent pair has the previous entry's effective end in the
same calendar month and year as the current entry's start. -/
theorem chronOrderME_contiguous_iff (today : CDate)
    (entries : List TimelineEntry) (e : TimelineEntry) (h : entries ≠ []) :
    isEntryInChronologicalOrderME today entries e none = true ↔
      List.Chain' (fun p c => monthOf (effectiveEnd today p) = c.startDate)
        (sortByStart (entries ++ [e])) := by
  simp only [isEntryInChronologicalOrderME, isEmpty_eq_false_of_ne_nil h,
    Bool.false_eq_true, if_false]
  exact checkPairsME_eq_true_iff today _

/-- Witness for C2: after an entry ending 2018-06, a candidate starting
2018-06 is accepted by the month-equality validator. -/
theorem chronOrderME_contiguous_iff_witness :
    isEntryInChronologicalOrderME ⟨2025, 5, 15⟩
      [⟨1, .education, "t", "o", "c", ⟨2015, 9⟩, .on ⟨2018, 6⟩, "d"⟩]
      ⟨2, .work, "t", "o", "c", ⟨2018, 6⟩, .on ⟨2020, 6⟩, "d"⟩ none = true :=
  (chronOrderME_contiguous_iff ⟨2025, 5, 15⟩
      [⟨1, .education, "t", "o", "c", ⟨2015, 9⟩, .on ⟨2018, 6⟩, "d"⟩]
      ⟨2, .work, "t", "o", "c", ⟨2018, 6⟩, .on ⟨2020, 6⟩, "d"⟩
      (by decide)).mpr (List.chain'_pair.mpr (by decide))

/-- C8: the month-difference gap query equals, on every entry list, the
spec's description — sort by start date, then one gap record per adjacent
pair whose previous effective end differs in month or year from the
current start, none otherwise; in particular an entry ending 2018-06
followed by one starting 2018-08 yields exactly the record
(2018-06, 2018-08). -/
theorem identifyGapsME_spec :
    (∀ today entries, identifyGapsME today entries =
      gapRecordsSpec today (sortByStart entries)) ∧
    (∀ today : CDate, identifyGapsME today
      [⟨1, .education, "t", "o", "c", ⟨2015, 9⟩, .on ⟨2018, 6⟩, "d"⟩,
       ⟨2, .work, "t", "o", "c", ⟨2018, 8⟩, .on ⟨2020, 6⟩, "d"⟩] =
      [⟨⟨2018, 6, 1⟩, ⟨2018, 8, 1⟩⟩]) := by
  constructor
  · intro today entries
    by_cases hlen : entries.length < 2
    · rw [identifyGapsME, if_pos hlen]
      rcases hs : sortByStart entries with _ | ⟨a, _ | ⟨b, t⟩⟩
      · simp [gapRecordsSpec]
      · simp [gapRecordsSpec]
      · exfalso
        have hl := congrArg List.length hs
        rw [sortByStart, List.length_insertionSort] at hl
        simp at hl
        omega
    · rw [identifyGapsME, if_neg hlen, gapsLoopME_eq_pairs, gapRecordsSpec]
  · intro today
    rfl

/-- C7: for every store state, the entry list returned by `getCVData` is
sorted ascending by start date. -/
theorem getCVData_entries_sorted (s : CVState) :
    List.Sorted startLE (getCVData s).entries :=
  List.sorted_insertionSort startLE s.entries

/-- C3 counterexample: on an empty entry set, with a valid date of birth,
`addEntry` accepts a candidate whose concrete end (2005-01) precedes its
start (2005-06) — the claimed invalid-date-ordering rejection does not
apply to a first entry. -/
theorem addEntry_first_accepts_endBeforeStart :
    CDate.lt (toDate ⟨2005, 1⟩) (toDate ⟨2005, 6⟩) = true ∧
    (addEntry ⟨2025, 5, 15⟩
      ⟨⟨"A", "B", some ⟨2000, 1, 1⟩, "", "", ""⟩, [], none, false⟩
      ⟨.education, "t", "o", "c", ⟨2005, 6⟩, .on ⟨2005, 1⟩, "d"⟩ 7).1 =
      none := by decide

/-- C3 (amended): a candidate whose concrete end month is at or before its
start month is rejected by `addEntry` on a non-empty set and by
`updateEntry` outside the first-entry branch — with the
invalid-date-ordering reason whenever the chronology check passes — while
a candidate in first-entry position undergoes no end-after-start check. -/
theorem endBeforeStart_rejected_nonFirst :
    (∀ today (s : CVState) (e : EntryInput) (i : Nat) (m : MDate),
      s.entries ≠ [] → e.endDate = .on m →
      CDate.le (toDate m) (toDate e.startDate) = true →
      (addEntry today s e i).1 ≠ none ∧
      (isEntryInChronologicalOrder today s.entries (e.withId i) none = true →
        (addEntry today s e i).1 = some .invalidDateOrdering)) ∧
    (∀ today (s : CVState) (id : Nat) (p : EntryPatch) (E : TimelineEntry)
      (m : MDate),
      s.entries.find? (fun x => x.id == id) = some E →
      isFirstEntryCond s.entries id = false →
      (applyPatch E p).endDate = .on m →
      CDate.le (toDate m) (toDate (applyPatch E p).startDate) = true →
      (updateEntry today s id p).1 ≠ none ∧
      (isEntryInChronologicalOrder today s.entries (applyPatch E p)
          (some id) = true →
        (updateEntry today s id p).1 = some .invalidDateOrdering)) := by
  constructor
  · intro today s e i m hne hend hle
    have h1 : s.entries.isEmpty = false := isEmpty_eq_false_of_ne_nil hne
    by_cases hc : isEntryInChronologicalOrder today s.entries (e.withId i) none
    · have heff : effectiveEnd today (e.withId i) = toDate m := by
        simp [effectiveEnd, EntryInput.withId, hend]
      have hstart : (e.withId i).startDate = e.startDate := rfl
      have hres : (addEntry today s e i).1 = some .invalidDateOrdering := by
        simp [addEntry, h1, hc, heff, hstart, hle]
      exact ⟨by simp [hres], fun _ => hres⟩
    · have hres : (addEntry today s e i).1 = some .chronologyViolation := by
        simp [addEntry, h1, hc]
      exact ⟨by simp [hres], fun hcc => absurd hcc hc⟩
  · intro today s id p E m hf hfe hend hle
    by_cases hc : isEntryInChronologicalOrder today s.entries
        (applyPatch E p) (some id)
    · have heff : effectiveEnd today (applyPatch E p) = toDate m := by
        simp [effectiveEnd, hend]
      have hres : (updateEntry today s id p).1 = some .invalidDateOrdering := by
        simp [updateEntry, hf, hfe, hc, heff, hle]
      exact ⟨by simp [hres], fun _ => hres⟩
    · have hres : (updateEntry today s id p).1 = some .chronologyViolation := by
        simp [updateEntry, hf, hfe, hc]
      exact ⟨by simp [hres], fun hcc => absurd hcc hc⟩

/-- Witness for the amended C3: with one stored entry, a candidate
starting 2018-06 and ending 2018-06 passes the range chronology check and
is rejected with the invalid-date-ordering reason. -/
theorem endBeforeStart_rejected_nonFirst_witness :
    (addEntry ⟨2025, 5, 15⟩
      ⟨⟨"A", "B", some ⟨2000, 1, 1⟩, "", "", ""⟩,
        [⟨1, .education, "t", "o", "c", ⟨2015, 9⟩, .on ⟨2018, 6⟩, "d"⟩],
        none, false⟩
      ⟨.work, "t", "o", "c", ⟨2018, 6⟩, .on ⟨2018, 6⟩, "d"⟩ 9).1 =
      some RejectReason.invalidDateOrdering :=
  (endBeforeStart_rejected_nonFirst.1 ⟨2025, 5, 15⟩
    ⟨⟨"A", "B", some ⟨2000, 1, 1⟩, "", "", ""⟩,
      [⟨1, .education, "t", "o", "c", ⟨2015, 9⟩, .on ⟨2018, 6⟩, "d"⟩],
      none, false⟩
    ⟨.work, "t", "o", "c", ⟨2018, 6⟩, .on ⟨2018, 6⟩, "d"⟩ 9 ⟨2018, 6⟩
    (by decide) rfl (by decide)).2 (by decide)

/-- C4 counterexample: with the single stored entry starting 2020-01 and
ending "present", and the clock at 2025-05-15, a candidate starting
2020-06 — a month different from the clock's — is accepted by the range
validator, not rejected. -/
theorem chronOrder_afterPresent_counterexample :
    (⟨2020, 6⟩ : MDate) ≠ monthOf ⟨2025, 5, 15⟩ ∧
    isEntryInChronologicalOrder ⟨2025, 5, 15⟩
      [⟨1, .work, "t", "o", "c", ⟨2020, 1⟩, .present, "d"⟩]
      ⟨2, .work, "t", "o", "c", ⟨2020, 6⟩, .on ⟨2021, 1⟩, "d"⟩ none =
      true := by decide

/-- C4 (amended): against the single entry starting 2020-01 with
open-ended end, the range validator accepts a candidate exactly when its
start lies between 2020-01 and the clock date (inclusive), or the
candidate starts before 2020-01 and its own effective end reaches
2020-01. -/
theorem chronOrder_afterPresent_iff (today : CDate) (i1 : Nat)
    (ty : EntryType) (ti org co de : String) (E2 : TimelineEntry) :
    isEntryInChronologicalOrder today
      [⟨i1, ty, ti, org, co, ⟨2020, 1⟩, .present, de⟩] E2 none = true ↔
      ((CDate.le (toDate ⟨2020, 1⟩) (toDate E2.startDate) = true ∧
        CDate.le (toDate E2.startDate) today = true) ∨
       (CDate.le (toDate ⟨2020, 1⟩) (toDate E2.startDate) = false ∧
        CDate.le (toDate ⟨2020, 1⟩) (effectiveEnd today E2) = true)) := by
  by_cases hr : startLE
      (⟨i1, ty, ti, org, co, ⟨2020, 1⟩, .present, de⟩ : TimelineEntry) E2
  · have hrb : CDate.le (toDate ⟨2020, 1⟩) (toDate E2.startDate) = true := hr
    have hsort : sortByStart
        ([⟨i1, ty, ti, org, co, ⟨2020, 1⟩, .present, de⟩] ++ [E2]) =
        [⟨i1, ty, ti, org, co, ⟨2020, 1⟩, .present, de⟩, E2] := by
      simp [sortByStart, List.insertionSort, List.orderedInsert, hr]
    simp only [isEntryInChronologicalOrder, List.isEmpty_cons,
      Bool.false_eq_true, if_false, hsort, checkPairsRange, effectiveEnd,
      CDate.lt]
    cases hx : CDate.le (toDate E2.startDate) today <;> simp [hx, hrb]
  · have hrf : CDate.le (toDate ⟨2020, 1⟩) (toDate E2.startDate) = false := by
      simpa [startLE] using hr
    have hba : CDate.le (toDate E2.startDate) (toDate ⟨2020, 1⟩) = true := by
      rcases CDate.le_total (toDate ⟨2020, 1⟩) (toDate E2.startDate) with h | h
      · rw [hrf] at h
        exact absurd h (by simp)
      · exact h
    have hsort : sortByStart
        ([⟨i1, ty, ti, org, co, ⟨2020, 1⟩, .present, de⟩] ++ [E2]) =
        [E2, ⟨i1, ty, ti, org, co, ⟨2020, 1⟩, .present, de⟩] := by
      simp [sortByStart, List.insertionSort, List.orderedInsert, hr]
    simp only [isEntryInChronologicalOrder, List.isEmpty_cons,
      Bool.false_eq_true, if_false, hsort, checkPairsRange, CDate.lt]
    cases hx2 : CDate.le (toDate ⟨2020, 1⟩) (effectiveEnd today E2) <;>
      simp [hx2, hrf, hba]

/-- Witness for the amended C4: a candidate starting 2021-07, between
2020-01 and the clock 2025-05-15, is accepted. -/
theorem chronOrder_afterPresent_iff_witness :
    isEntryInChronologicalOrder ⟨2025, 5, 15⟩
      [⟨1, .work, "t", "o", "c", ⟨2020, 1⟩, .present, "d"⟩]
      ⟨2, .work, "t", "o", "c", ⟨2021, 7⟩, .on ⟨2022, 1⟩, "d"⟩ none =
      true :=
  (chronOrder_afterPresent_iff ⟨2025, 5, 15⟩ 1 .work "t" "o" "c" "d"
    ⟨2, .work, "t", "o", "c", ⟨2021, 7⟩, .on ⟨2022, 1⟩, "d"⟩).mpr
    (Or.inl ⟨by decide, by decide⟩)

/-- C6 counterexample: a no-op edit (patch holding the entry's current
values) of the single stored entry is rejected when the date of birth is
absent — editing an entry to its current values is not always accepted. -/
theorem updateEntry_noop_missingDob :
    applyPatch ⟨1, .education, "t", "o", "c", ⟨2010, 9⟩, .on ⟨2012, 6⟩, "d"⟩
      (noopPatch ⟨1, .education, "t", "o", "c", ⟨2010, 9⟩, .on ⟨2012, 6⟩, "d"⟩)
      = ⟨1, .education, "t", "o", "c", ⟨2010, 9⟩, .on ⟨2012, 6⟩, "d"⟩ ∧
    (updateEntry ⟨2025, 5, 15⟩
      ⟨⟨"A", "B", none, "", "", ""⟩,
        [⟨1, .education, "t", "o", "c", ⟨2010, 9⟩, .on ⟨2012, 6⟩, "d"⟩],
        none, false⟩ 1
      (noopPatch ⟨1, .education, "t", "o", "c", ⟨2010, 9⟩, .on ⟨2012, 6⟩, "d"⟩)).1
      = some RejectReason.missingDateOfBirth := by decide

/-- C6 (amended): `updateEntry` validates the patched entry with the prior
version excluded from the chronology comparison, and a no-op edit succeeds
exactly when the entry still passes its branch's validation: outside the
first-entry branch, the chronology check (with the entry's own id
excluded) plus the end-after-start check; in the single-entry branch, a
present date of birth with the start inside the first-entry window. -/
theorem updateEntry_noop_validation :
    (∀ today (s : CVState) (E : TimelineEntry),
      s.entries.find? (fun x => x.id == E.id) = some E →
      isFirstEntryCond s.entries E.id = false →
      ((updateEntry today s E.id (noopPatch E)).1 = none ↔
        (isEntryInChronologicalOrder today s.entries E (some E.id) = true ∧
         CDate.le (effectiveEnd today E) (toDate E.startDate) = false))) ∧
    (∀ today (pinf : PersonalInfo) (E : TimelineEntry) (eid : Option Nat)
      (pm : Bool),
      ((updateEntry today ⟨pinf, [E], eid, pm⟩ E.id (noopPatch E)).1 = none ↔
        ∃ D, pinf.dateOfBirth = some D ∧
          isDateWithinElevenYearWindow D E.startDate = true)) := by
  have hap : ∀ E : TimelineEntry, applyPatch E (noopPatch E) = E :=
    fun _ => rfl
  constructor
  · intro today s E hf hfe
    simp only [updateEntry, hf, hfe, Bool.false_eq_true, if_false, hap]
    by_cases hc : isEntryInChronologicalOrder today s.entries E (some E.id)
    · by_cases hle : CDate.le (effectiveEnd today E) (toDate E.startDate)
      · simp [hc, hle]
      · simp [hc, hle]
    · simp [hc]
  · intro today pinf E eid pm
    have hf : List.find? (fun x => x.id == E.id) [E] = some E := by
      simp [List.find?]
    have hfe : isFirstEntryCond [E] E.id = true := by
      simp [isFirstEntryCond]
    simp only [updateEntry, hf, hfe, if_true, hap]
    cases hd : pinf.dateOfBirth with
    | none => simp [hd]
    | some D =>
        by_cases hw : isDateWithinElevenYearWindow D E.startDate
        · simp [hd, hw]
        · simp [hd, hw]

/-- Witness for the amended C6: with two stored entries, a no-op edit of
the second one passes the chronology and date-ordering checks and
succeeds. -/
theorem updateEntry_noop_validation_witness :
    (updateEntry ⟨2025, 5, 15⟩
      ⟨⟨"A", "B", some ⟨2000, 1, 1⟩, "", "", ""⟩,
        [⟨1, .education, "t", "o", "c", ⟨2005, 6⟩, .on ⟨2008, 6⟩, "d"⟩,
         ⟨2, .work, "t", "o", "c", ⟨2008, 6⟩, .on ⟨2010, 6⟩, "d"⟩],
        none, false⟩ 2
      (noopPatch ⟨2, .work, "t", "o", "c", ⟨2008, 6⟩, .on ⟨2010, 6⟩, "d"⟩)).1
      = none :=
  (updateEntry_noop_validation.1 ⟨2025, 5, 15⟩
    ⟨⟨"A", "B", some ⟨2000, 1, 1⟩, "", "", ""⟩,
      [⟨1, .education, "t", "o", "c", ⟨2005, 6⟩, .on ⟨2008, 6⟩, "d"⟩,
       ⟨2, .work, "t", "o", "c", ⟨2008, 6⟩, .on ⟨2010, 6⟩, "d"⟩],
      none, false⟩
    ⟨2, .work, "t", "o", "c", ⟨2008, 6⟩, .on ⟨2010, 6⟩, "d"⟩
    (by decide) (by decide)).mpr ⟨by decide, by decide⟩
